import Mathlib

/-!
Verification development for the kafka_rust_chat backend
(src/kafka_rust_chat_backend/src/main.rs).

The program is a WebSocket chat relay backed by a Kafka topic.  We give a
shallow embedding of the pieces the specification talks about:

* JSON values as decoded by serde_json (`JValue`), together with the read
  indexing `value[k]` (which yields JSON null on a miss or a non-object)
  and the write indexing `value[k] = x` (which inserts into an object,
  turns JSON null into a fresh object, and panics on every other value);
* the Dedup Ledger (`HashSet<String>` behind a mutex), modelled as a
  `Finset String` with `markSeen` / `hasSeen`;
* one iteration of the Kafka consumer task (`bridgeStep`, main.rs 66-82):
  decode the record payload, extract a string id, drop already-seen ids,
  otherwise insert the id and forward the raw payload text to the
  broadcast channel;
* one iteration of the per-connection recv task (`recvEffects`,
  main.rs 150-171): parse the text frame, enrich with fresh id and
  timestamp, mark the id seen, publish to Kafka, broadcast locally;
* one iteration of the per-connection send task (`sendLoopContinues`,
  main.rs 139-145) and the teardown performed after `tokio::select!`
  (`teardownActions`, main.rs 174-177).

Effects are recorded as explicit event lists so that ordering and
presence/absence of publishes and broadcasts can be stated.
-/

namespace KafkaRustChat

/-- JSON values as produced by `serde_json::from_str::<serde_json::Value>`.
Objects are modelled as association lists standing for the string-keyed
map; numbers are carried opaquely as integers (no claim computes with
them). -/
inductive JValue where
  | null
  | bool (b : Bool)
  | num (n : Int)
  | str (s : String)
  | arr (elems : List JValue)
  | obj (fields : List (String × JValue))

/-- Map insertion on the association-list representation of a JSON object:
replace the value in place if the key is present, otherwise append the new
entry (serde_json `Map::insert`). -/
def setField : List (String × JValue) → String → JValue → List (String × JValue)
  | [], k, v => [(k, v)]
  | (k₀, v₀) :: rest, k, v =>
      if k₀ = k then (k, v) :: rest else (k₀, v₀) :: setField rest k v

/-- Map lookup on the association-list representation of a JSON object. -/
def lookupField : List (String × JValue) → String → Option JValue
  | [], _ => none
  | (k₀, v₀) :: rest, k => if k₀ = k then some v₀ else lookupField rest k

/-- Read indexing `value[k]` of serde_json (`Index<&str> for Value`): on an
object it returns the entry or JSON null when absent; on every other value
it returns JSON null (no panic).  Used by the consumer task at main.rs:70
as `value["id"]`. -/
def JValue.getIndex : JValue → String → JValue
  | .obj fs, k => (lookupField fs k).getD .null
  | _, _ => .null

/-- `Value::as_str`: the string content when the value is a JSON string. -/
def JValue.asStr : JValue → Option String
  | .str s => some s
  | _ => none

/-- Whether a JSON value is an object that carries the field `k`. -/
def hasField (v : JValue) (k : String) : Bool :=
  match v with
  | .obj fs => (lookupField fs k).isSome
  | _ => false

/-- Write indexing `value[k] = x` of serde_json (`IndexMut<&str> for
Value` followed by assignment): inserting into an object replaces or adds
the entry; inserting into JSON null first replaces the value with an empty
object; every other value makes the indexing panic, modelled as `none`.
Used by the recv task at main.rs:153-154. -/
def JValue.setIndex : JValue → String → JValue → Option JValue
  | .null, k, x => some (.obj (setField [] k x))
  | .obj fs, k, x => some (.obj (setField fs k x))
  | _, _, _ => none

/-- The Dedup Ledger: the `HashSet<String>` of already-seen message ids
(main.rs:55), shared by all sessions and the consumer task. -/
abbrev Ledger := Finset String

/-- `HashSet::insert` on the ledger (main.rs:74 and main.rs:158). -/
def markSeen (id : String) (s : Ledger) : Ledger := insert id s

/-- `HashSet::contains` on the ledger (main.rs:73). -/
def hasSeen (id : String) (s : Ledger) : Bool := id ∈ s

/-- Observable effects of one iteration of the recv task
(main.rs 150-171), in program order. -/
inductive Event where
  /-- the id is inserted into the Dedup Ledger (main.rs:158) -/
  | markSeen (id : String)
  /-- `producer.send(FutureRecord::to(topic).payload(payload).key(key))`;
  `ok` records whether the awaited send succeeded — the code discards the
  result (main.rs:161-166) -/
  | publish (topic : String) (key : String) (payload : JValue) (ok : Bool)
  /-- `tx.send(payload)`: broadcast to the Fan-Out Hub (main.rs:169) -/
  | hubSend (payload : JValue)

/-- Observable effects of one iteration of the Kafka consumer task
(main.rs 66-82), in program order.  The constructor `publish` is included
so that "the bridge never publishes to the broker" is a statement about
this type, not a vacuity of it. -/
inductive BridgeEffect where
  /-- the id is inserted into the Dedup Ledger (main.rs:74) -/
  | markSeen (id : String)
  /-- `tx_clone.send(text.to_string())`: the raw payload text is forwarded
  to the broadcast channel (main.rs:76) -/
  | hubForward (text : String)
  /-- a Kafka publish — the consumer task contains no such call -/
  | publish (topic : String) (key : String) (payload : String)

/-- Enrichment performed by the recv task (main.rs:152-154):
`value["id"] = id; value["timestamp"] = ts`, where the indexing assignment
panics (`none`) on values that are neither an object nor JSON null. -/
def enrich (v : JValue) (id ts : String) : Option JValue :=
  (v.setIndex "id" (.str id)).bind fun v₁ => v₁.setIndex "timestamp" (.str ts)

/-- Outcome of one iteration of the recv task body on a text frame whose
parse result is `parsed` (main.rs 150-171). -/
inductive RecvOutcome where
  /-- `serde_json::from_str` failed: the frame is dropped silently and the
  loop continues (the `if let Ok` at main.rs:151 does not match) -/
  | skip
  /-- the indexing assignment at main.rs:153 panicked: the task unwinds -/
  | panic
  /-- the frame was accepted and enriched -/
  | accept (enriched : JValue)

/-- One iteration of the recv task body, as an outcome. -/
def recvStep (parsed : Option JValue) (id ts : String) : RecvOutcome :=
  match parsed with
  | none => .skip
  | some v =>
    match enrich v id ts with
    | none => .panic
    | some p => .accept p

/-- One iteration of the recv task body (main.rs 150-171): given the
ledger, the parse result of the client text frame, the freshly minted
uuid `id`, the timestamp `ts`, and whether the Kafka send would succeed,
returns the new ledger, the ordered list of observable effects, and
whether the read loop keeps running afterwards. -/
def recvEffects (seen : Ledger) (parsed : Option JValue) (id ts : String)
    (pubOk : Bool) : Ledger × List Event × Bool :=
  match recvStep parsed id ts with
  | .skip => (seen, [], true)
  | .panic => (seen, [], false)
  | .accept p =>
      (markSeen id seen,
       [Event.markSeen id,
        Event.publish "chat-room" "chat" p pubOk,
        Event.hubSend p],
       true)

/-- One iteration of the Kafka consumer task body (main.rs 66-82): `text`
is the record payload when present and valid UTF-8 (`payload_view::<str>`,
main.rs:68), `parsed` the result of `serde_json::from_str` on it.  Returns
the new ledger and the ordered list of observable effects. -/
def bridgeStep (seen : Ledger) (text : Option String) (parsed : Option JValue) :
    Ledger × List BridgeEffect :=
  match text with
  | none => (seen, [])
  | some t =>
    match parsed with
    | none => (seen, [])
    | some v =>
      match (v.getIndex "id").asStr with
      | none => (seen, [])
      | some id =>
        if hasSeen id seen then (seen, [])
        else (markSeen id seen,
              [BridgeEffect.markSeen id, BridgeEffect.hubForward t])

/-- Number of broadcasts to the Fan-Out Hub in a recv-task effect list. -/
def hubSends (evs : List Event) : Nat :=
  (evs.filter fun e => match e with | .hubSend _ => true | _ => false).length

/-- Number of forwards to the Fan-Out Hub in a consumer-task effect
list. -/
def hubForwards (evs : List BridgeEffect) : Nat :=
  (evs.filter fun e => match e with | .hubForward _ => true | _ => false).length

/-- Capacity of the broadcast channel backing the Fan-Out Hub
(`broadcast::channel::<String>(100)`, main.rs:30). -/
def hubCapacity : Nat := 100

/-- Result of `rx.recv().await` on a `tokio::sync::broadcast` receiver:
a message, or `RecvError::Closed`, or `RecvError::Lagged(n)` after the
backlog overflowed and the receiver missed the `n` oldest messages. -/
inductive RecvRes where
  | received (msg : String)
  | closed
  | lagged (n : Nat)
deriving DecidableEq, Repr

/-- One iteration of the send task (main.rs 139-145): `while let Ok(msg) =
rx.recv().await` exits the loop on any receive error — `Closed` and
`Lagged` alike — and otherwise exits when the websocket write fails.
Returns whether the loop keeps running. -/
def sendLoopContinues (r : RecvRes) (writeOk : Bool) : Bool :=
  match r with
  | .received _ => writeOk
  | .closed => false
  | .lagged _ => false

/-- The two flows of a connection session: the recv task (inbound) and the
send task (outbound). -/
inductive Flow where
  | inbound
  | outbound
deriving DecidableEq, Repr

/-- The sibling flow of a flow within one session. -/
def sibling : Flow → Flow
  | .inbound => .outbound
  | .outbound => .inbound

/-- A teardown action `handle_socket` could perform on a task after
`tokio::select!` returns: `JoinHandle::abort` of a flow. -/
inductive TeardownAction where
  | abort (f : Flow)
deriving DecidableEq, Repr

/-- The actions `handle_socket` performs after `tokio::select!` returns
(main.rs 174-177): both select arms are empty blocks, so no action is
taken regardless of which flow finished first; the surviving JoinHandle is
merely dropped, and dropping a tokio JoinHandle detaches the task rather
than aborting it. -/
def teardownActions (finishedFirst : Flow) : List TeardownAction :=
  match finishedFirst with
  | .inbound => []
  | .outbound => []

/-- Whether the sibling of the flow that finished first gets aborted
during session teardown: true exactly when the teardown performs an abort
of the sibling (tokio semantics: a spawned task keeps running unless
explicitly aborted). -/
def siblingCancelled (finishedFirst : Flow) : Bool :=
  (teardownActions finishedFirst).contains (TeardownAction.abort (sibling finishedFirst))

/-! ### Association-list map lemmas -/

theorem lookupField_setField_self (fs : List (String × JValue)) (k : String)
    (v : JValue) : lookupField (setField fs k v) k = some v := by
  induction fs with
  | nil => simp [setField, lookupField]
  | cons hd tl ih =>
    obtain ⟨k₀, v₀⟩ := hd
    by_cases h : k₀ = k
    · simp [setField, h, lookupField]
    · simp [setField, h, lookupField, ih]

theorem lookupField_setField_ne (fs : List (String × JValue)) (k k' : String)
    (v : JValue) (h : k ≠ k') :
    lookupField (setField fs k v) k' = lookupField fs k' := by
  induction fs with
  | nil => simp [setField, lookupField, h]
  | cons hd tl ih =>
    obtain ⟨k₀, v₀⟩ := hd
    by_cases h₀ : k₀ = k
    · subst h₀
      simp [setField, lookupField, h]
    · simp [setField, h₀, lookupField, ih]

theorem setField_of_lookup_none (fs : List (String × JValue)) (k : String)
    (v : JValue) (h : lookupField fs k = none) :
    setField fs k v = fs ++ [(k, v)] := by
  induction fs with
  | nil => simp [setField]
  | cons hd tl ih =>
    obtain ⟨k₀, v₀⟩ := hd
    by_cases h₀ : k₀ = k
    · simp [lookupField, h₀] at h
    · simp [lookupField, h₀] at h
      simp [setField, h₀, ih h]

theorem lookupField_append (fs gs : List (String × JValue)) (k : String) :
    lookupField (fs ++ gs) k =
      match lookupField fs k with
      | some v => some v
      | none => lookupField gs k := by
  induction fs with
  | nil => simp [lookupField]
  | cons hd tl ih =>
    obtain ⟨k₀, v₀⟩ := hd
    by_cases h₀ : k₀ = k
    · simp [lookupField, h₀]
    · simp [lookupField, h₀, ih]

/-! ### Enrichment lemmas -/

theorem enrich_null_eq (i ts : String) :
    enrich .null i ts =
      some (.obj [("id", JValue.str i), ("timestamp", JValue.str ts)]) := by
  simp [enrich, JValue.setIndex, setField]

theorem enrich_obj_eq (fs : List (String × JValue)) (i ts : String) :
    enrich (.obj fs) i ts =
      some (.obj (setField (setField fs "id" (.str i)) "timestamp" (.str ts))) :=
  rfl

/-- The enriched value always carries the minted id and the timestamp as
string fields. -/
theorem enrich_fields (v p : JValue) (i ts : String) (h : enrich v i ts = some p) :
    p.getIndex "id" = .str i ∧ p.getIndex "timestamp" = .str ts := by
  have key : ∀ fs : List (String × JValue),
      (JValue.obj (setField (setField fs "id" (.str i)) "timestamp" (.str ts))).getIndex "id"
          = .str i ∧
      (JValue.obj (setField (setField fs "id" (.str i)) "timestamp" (.str ts))).getIndex "timestamp"
          = .str ts := by
    intro fs
    constructor
    · have hne : ("timestamp" : String) ≠ "id" := by decide
      simp [JValue.getIndex, lookupField_setField_ne _ _ _ _ hne,
        lookupField_setField_self]
    · simp [JValue.getIndex, lookupField_setField_self]
  cases v with
  | null =>
    rw [enrich_null_eq] at h
    cases h
    have := key []
    simpa [setField] using this
  | obj fs =>
    rw [enrich_obj_eq] at h
    cases h
    exact key fs
  | bool b => simp [enrich, JValue.setIndex] at h
  | num n => simp [enrich, JValue.setIndex] at h
  | str s => simp [enrich, JValue.setIndex] at h
  | arr elems => simp [enrich, JValue.setIndex] at h

/-- A value whose read index at `k` is a JSON string is an object carrying
the field `k`. -/
theorem hasField_of_getIndex_str (p : JValue) (k s : String)
    (h : p.getIndex k = .str s) : hasField p k = true := by
  cases p with
  | obj fs =>
    have h' : (lookupField fs k).getD .null = .str s := h
    cases hl : lookupField fs k with
    | none =>
      rw [hl] at h'
      exact JValue.noConfusion h'
    | some w => simp [hasField, hl]
  | null => exact JValue.noConfusion h
  | bool b => exact JValue.noConfusion h
  | num n => exact JValue.noConfusion h
  | str s₀ => exact JValue.noConfusion h
  | arr elems => exact JValue.noConfusion h

/-! ### Claims -/

/-- Claim C2: Topic Bridge per-record algorithm.  For every record
received from the broker: a record whose payload is absent or not valid
UTF-8, or whose payload does not decode as JSON, is discarded with no
effect; a decoded value with no string `id` field is discarded with no
effect; an id already in the Dedup Ledger is discarded with no effect;
otherwise the id is first inserted into the Ledger and then the raw
payload text is forwarded, unmodified, to the Fan-Out Hub; and the bridge
never publishes anything to the broker. -/
theorem bridge_record_algorithm :
    (∀ seen : Ledger, ∀ parsed, bridgeStep seen none parsed = (seen, [])) ∧
    (∀ seen : Ledger, ∀ t, bridgeStep seen (some t) none = (seen, [])) ∧
    (∀ seen : Ledger, ∀ t v, (JValue.getIndex v "id").asStr = none →
        bridgeStep seen (some t) (some v) = (seen, [])) ∧
    (∀ seen : Ledger, ∀ t v id, (JValue.getIndex v "id").asStr = some id →
        hasSeen id seen = true →
        bridgeStep seen (some t) (some v) = (seen, [])) ∧
    (∀ seen : Ledger, ∀ t v id, (JValue.getIndex v "id").asStr = some id →
        hasSeen id seen = false →
        bridgeStep seen (some t) (some v) =
          (markSeen id seen,
           [BridgeEffect.markSeen id, BridgeEffect.hubForward t])) ∧
    (∀ seen : Ledger, ∀ text parsed topic key payload,
        BridgeEffect.publish topic key payload ∉ (bridgeStep seen text parsed).2) := by
  refine ⟨fun seen parsed => rfl, fun seen t => rfl, ?_, ?_, ?_, ?_⟩
  · intro seen t v h
    simp [bridgeStep, h]
  · intro seen t v id h hseen
    simp [bridgeStep, h, hseen]
  · intro seen t v id h hseen
    simp [bridgeStep, h, hseen]
  · intro seen text parsed topic key payload
    cases text with
    | none => simp [bridgeStep]
    | some t =>
      cases parsed with
      | none => simp [bridgeStep]
      | some v =>
        cases hid : (JValue.getIndex v "id").asStr with
        | none => simp [bridgeStep, hid]
        | some id =>
          by_cases hs : hasSeen id seen = true
          · simp [bridgeStep, hid, hs]
          · simp [bridgeStep, hid, hs]

/-- Closed witness for the claim C2 theorem: a fresh-id record is marked
then forwarded. -/
theorem bridge_record_algorithm_witness :
    ((JValue.getIndex (JValue.obj [("id", JValue.str "a")]) "id").asStr = some "a") ∧
    hasSeen "a" (∅ : Ledger) = false ∧
    bridgeStep ∅ (some "rec") (some (JValue.obj [("id", JValue.str "a")])) =
      (markSeen "a" ∅, [BridgeEffect.markSeen "a", BridgeEffect.hubForward "rec"]) :=
  ⟨rfl, by simp [hasSeen],
   bridge_record_algorithm.2.2.2.2.1 ∅ "rec" _ "a" rfl (by simp [hasSeen])⟩

/-- Claim C5: Dedup idempotence.  Inserting an identifier into the Dedup
Ledger twice leaves it in the same state as inserting once; `has_seen`
afterwards returns true; and a broker record whose id is already in the
Ledger produces no effect at all, in particular it is never forwarded to
the Fan-Out Hub. -/
theorem dedup_idempotence :
    (∀ x : String, ∀ s : Ledger, markSeen x (markSeen x s) = markSeen x s) ∧
    (∀ x : String, ∀ s : Ledger, hasSeen x (markSeen x s) = true) ∧
    (∀ seen : Ledger, ∀ t v id, (JValue.getIndex v "id").asStr = some id →
        hasSeen id seen = true →
        (bridgeStep seen (some t) (some v)).2 = []) := by
  refine ⟨?_, ?_, ?_⟩
  · intro x s
    simp [markSeen, Finset.insert_idem]
  · intro x s
    simp [hasSeen, markSeen]
  · intro seen t v id hid hseen
    simp [bridgeStep, hid, hseen]

/-- Closed witness for the claim C5 theorem. -/
theorem dedup_idempotence_witness :
    markSeen "a" (markSeen "a" (∅ : Ledger)) = markSeen "a" ∅ ∧
    hasSeen "a" (markSeen "a" (∅ : Ledger)) = true ∧
    (bridgeStep (markSeen "a" ∅) (some "rec")
        (some (JValue.obj [("id", JValue.str "a")]))).2 = [] :=
  ⟨dedup_idempotence.1 "a" ∅, dedup_idempotence.2.1 "a" ∅,
   dedup_idempotence.2.2 (markSeen "a" ∅) "rec" _ "a" rfl
     (by simp [hasSeen, markSeen])⟩

/-- Claim C3: Enrichment correctness.  For a client-submitted JSON object
`P` without `id` and `timestamp`, the enriched value that is both
published to the broker and broadcast locally equals `P` with exactly the
two fields `id` and `timestamp` appended, every other field unchanged. -/
theorem enrichment_correctness (fs : List (String × JValue)) (i ts : String)
    (hid : lookupField fs "id" = none) (hts : lookupField fs "timestamp" = none)
    (seen : Ledger) (pubOk : Bool) :
    enrich (.obj fs) i ts =
      some (.obj (fs ++ [("id", JValue.str i), ("timestamp", JValue.str ts)])) ∧
    recvEffects seen (some (.obj fs)) i ts pubOk =
      (markSeen i seen,
       [Event.markSeen i,
        Event.publish "chat-room" "chat"
          (.obj (fs ++ [("id", JValue.str i), ("timestamp", JValue.str ts)])) pubOk,
        Event.hubSend
          (.obj (fs ++ [("id", JValue.str i), ("timestamp", JValue.str ts)]))],
       true) := by
  have h₁ : setField fs "id" (JValue.str i) = fs ++ [("id", JValue.str i)] :=
    setField_of_lookup_none _ _ _ hid
  have h₂ : lookupField (fs ++ [("id", JValue.str i)]) "timestamp" = none := by
    rw [lookupField_append, hts]
    simp [lookupField]
  have h₃ : setField (fs ++ [("id", JValue.str i)]) "timestamp" (JValue.str ts) =
      (fs ++ [("id", JValue.str i)]) ++ [("timestamp", JValue.str ts)] :=
    setField_of_lookup_none _ _ _ h₂
  have he : enrich (.obj fs) i ts =
      some (.obj (fs ++ [("id", JValue.str i), ("timestamp", JValue.str ts)])) := by
    rw [enrich_obj_eq, h₁, h₃]
    simp
  exact ⟨he, by simp [recvEffects, recvStep, he]⟩

/-- Closed witness for the claim C3 theorem. -/
theorem enrichment_correctness_witness :
    lookupField [("text", JValue.str "hi")] "id" = none ∧
    lookupField [("text", JValue.str "hi")] "timestamp" = none ∧
    enrich (JValue.obj [("text", JValue.str "hi")]) "u" "ts" =
      some (JValue.obj [("text", JValue.str "hi"), ("id", JValue.str "u"),
        ("timestamp", JValue.str "ts")]) :=
  ⟨rfl, rfl,
   (enrichment_correctness [("text", JValue.str "hi")] "u" "ts" rfl rfl ∅ true).1⟩

/-- Claim C7: Inbound-flow ordering and fire-and-forget echo.  For every
accepted message the recv task emits exactly the sequence dedup-mark, then
broker publish, then local broadcast, in that order, for either value of
the publish result — and in particular the local broadcast still happens
(exactly once) when the publish fails. -/
theorem inbound_ordering_fire_and_forget (seen : Ledger) (v p : JValue)
    (i ts : String) (h : enrich v i ts = some p) :
    (∀ pubOk, recvEffects seen (some v) i ts pubOk =
      (markSeen i seen,
       [Event.markSeen i, Event.publish "chat-room" "chat" p pubOk,
        Event.hubSend p],
       true)) ∧
    hubSends (recvEffects seen (some v) i ts false).2.1 = 1 := by
  constructor
  · intro pubOk
    simp [recvEffects, recvStep, h]
  · simp [recvEffects, recvStep, h, hubSends, List.filter]

/-- Closed witness for the claim C7 theorem. -/
theorem inbound_ordering_fire_and_forget_witness :
    recvEffects ∅ (some JValue.null) "a" "t" false =
      (markSeen "a" ∅,
       [Event.markSeen "a",
        Event.publish "chat-room" "chat"
          (JValue.obj [("id", JValue.str "a"), ("timestamp", JValue.str "t")]) false,
        Event.hubSend
          (JValue.obj [("id", JValue.str "a"), ("timestamp", JValue.str "t")])],
       true) ∧
    hubSends (recvEffects ∅ (some JValue.null) "a" "t" false).2.1 = 1 := by
  have h := inbound_ordering_fire_and_forget ∅ JValue.null
      (JValue.obj [("id", JValue.str "a"), ("timestamp", JValue.str "t")]) "a" "t"
      (enrich_null_eq "a" "t")
  exact ⟨h.1 false, h.2⟩

/-- Claim C1: No self-loop duplication.  The inbound flow broadcasts an
accepted message to the Fan-Out Hub exactly once, and because the minted
id is marked seen before the publish, the Topic Bridge read-back of the
same message from the broker is discarded: it changes no state and
forwards nothing. -/
theorem no_self_loop_duplication (seen : Ledger) (v p : JValue) (i ts : String)
    (pubOk : Bool) (readBack : String) (h : enrich v i ts = some p) :
    hubSends (recvEffects seen (some v) i ts pubOk).2.1 = 1 ∧
    bridgeStep (recvEffects seen (some v) i ts pubOk).1 (some readBack) (some p) =
      ((recvEffects seen (some v) i ts pubOk).1, []) := by
  obtain ⟨hid, -⟩ := enrich_fields v p i ts h
  constructor
  · simp [recvEffects, recvStep, h, hubSends, List.filter]
  · simp [recvEffects, recvStep, h, bridgeStep, hid, JValue.asStr, hasSeen, markSeen]

/-- Closed witness for the claim C1 theorem. -/
theorem no_self_loop_duplication_witness :
    enrich JValue.null "a" "t" =
      some (JValue.obj [("id", JValue.str "a"), ("timestamp", JValue.str "t")]) ∧
    hubSends (recvEffects ∅ (some JValue.null) "a" "t" true).2.1 = 1 ∧
    bridgeStep (recvEffects ∅ (some JValue.null) "a" "t" true).1 (some "rb")
        (some (JValue.obj [("id", JValue.str "a"), ("timestamp", JValue.str "t")])) =
      ((recvEffects ∅ (some JValue.null) "a" "t" true).1, []) := by
  have h := no_self_loop_duplication ∅ JValue.null
      (JValue.obj [("id", JValue.str "a"), ("timestamp", JValue.str "t")]) "a" "t"
      true "rb" (enrich_null_eq "a" "t")
  exact ⟨enrich_null_eq "a" "t", h.1, h.2⟩

/-- Claim C10: a client text frame whose content is the JSON value null is
accepted: the recv task turns it into an object containing exactly the
relay-assigned `id` and `timestamp` fields, publishes it to topic
"chat-room" with the constant partition key "chat", and broadcasts it
locally. -/
theorem null_frame_accepted (seen : Ledger) (i ts : String) (pubOk : Bool) :
    recvEffects seen (some JValue.null) i ts pubOk =
      (markSeen i seen,
       [Event.markSeen i,
        Event.publish "chat-room" "chat"
          (JValue.obj [("id", JValue.str i), ("timestamp", JValue.str ts)]) pubOk,
        Event.hubSend
          (JValue.obj [("id", JValue.str i), ("timestamp", JValue.str ts)])],
       true) := by
  simp [recvEffects, recvStep, enrich_null_eq]

/-- Claim C4 counterexample: the text frame "5" decodes as well-formed
JSON that is not a mapping; the claim says such a frame is silently
dropped and the read loop continues, but in the code the indexing
assignment `value["id"] = ...` panics on a JSON number, the recv task
unwinds (no publish, no broadcast), and the read loop does not continue —
ending the Session. -/
theorem malformed_isolation_counterexample :
    recvStep (some (JValue.num 5)) "i0" "t0" = RecvOutcome.panic ∧
    (recvEffects ∅ (some (JValue.num 5)) "i0" "t0" true).2.2 = false :=
  ⟨rfl, rfl⟩

/-- Claim C4 as amended: a client text frame that is not valid JSON is
silently dropped — no state change, no publish, no broadcast, and the
read loop continues; but a frame that is valid JSON and neither an object
nor JSON null (a bool, number, string, or array) makes the indexing
assignment panic, terminating the inbound flow — still with no state
change, no publish and no broadcast. -/
theorem malformed_isolation_amended :
    (∀ seen : Ledger, ∀ i ts : String, ∀ pubOk,
        recvEffects seen none i ts pubOk = (seen, [], true)) ∧
    (∀ seen : Ledger, ∀ v : JValue, ∀ i ts : String, ∀ pubOk,
        enrich v i ts = none →
        recvEffects seen (some v) i ts pubOk = (seen, [], false)) ∧
    (∀ i ts : String, ∀ b n s elems,
        enrich (JValue.bool b) i ts = none ∧ enrich (JValue.num n) i ts = none ∧
        enrich (JValue.str s) i ts = none ∧ enrich (JValue.arr elems) i ts = none) := by
  refine ⟨fun seen i ts pubOk => rfl, ?_, ?_⟩
  · intro seen v i ts pubOk h
    simp [recvEffects, recvStep, h]
  · intro i ts b n s elems
    exact ⟨rfl, rfl, rfl, rfl⟩

/-- Closed witness for the amended claim C4 theorem. -/
theorem malformed_isolation_amended_witness :
    enrich (JValue.num 7) "i0" "t0" = none ∧
    recvEffects ∅ (some (JValue.num 7)) "i0" "t0" true = (∅, [], false) :=
  ⟨rfl, malformed_isolation_amended.2.1 ∅ (JValue.num 7) "i0" "t0" true rfl⟩

/-- Claim C6 counterexample: a broker record decoding to an object with a
string id but no timestamp field is forwarded to the Fan-Out Hub — the
consumer task checks only `id`, never `timestamp` — so a message without
a timestamp reaches the Hub, refuting the claimed invariant. -/
theorem hub_invariant_counterexample :
    (bridgeStep ∅ (some "rec0") (some (JValue.obj [("id", JValue.str "a")]))).2 =
      [BridgeEffect.markSeen "a", BridgeEffect.hubForward "rec0"] ∧
    hasField (JValue.obj [("id", JValue.str "a")]) "timestamp" = false := by
  constructor
  · simp [bridgeStep, JValue.getIndex, lookupField, JValue.asStr, hasSeen]
  · rfl

/-- Claim C6 as amended: every message broadcast by a Session's inbound
flow has both the `id` and the `timestamp` field set; a message forwarded
to the Fan-Out Hub by the Topic Bridge is only guaranteed to decode to a
value with a string `id` field — its timestamp is present only if the
broker record carried one. -/
theorem hub_invariant_amended :
    (∀ v p : JValue, ∀ i ts : String, enrich v i ts = some p →
        hasField p "id" = true ∧ hasField p "timestamp" = true) ∧
    (∀ seen : Ledger, ∀ text : Option String, ∀ parsed : Option JValue,
        ∀ t : String,
        BridgeEffect.hubForward t ∈ (bridgeStep seen text parsed).2 →
        ∃ v id, parsed = some v ∧ (JValue.getIndex v "id").asStr = some id) := by
  constructor
  · intro v p i ts h
    obtain ⟨hid, hts⟩ := enrich_fields v p i ts h
    exact ⟨hasField_of_getIndex_str p "id" i hid,
      hasField_of_getIndex_str p "timestamp" ts hts⟩
  · intro seen text parsed t hmem
    cases text with
    | none => simp [bridgeStep] at hmem
    | some t₀ =>
      cases parsed with
      | none => simp [bridgeStep] at hmem
      | some v =>
        cases hid : (JValue.getIndex v "id").asStr with
        | none => simp [bridgeStep, hid] at hmem
        | some id =>
          by_cases hs : hasSeen id seen = true
          · simp [bridgeStep, hid, hs] at hmem
          · exact ⟨v, id, rfl, hid⟩

/-- Closed witness for the amended claim C6 theorem. -/
theorem hub_invariant_amended_witness :
    (hasField (JValue.obj [("id", JValue.str "a"), ("timestamp", JValue.str "t")])
        "id" = true ∧
     hasField (JValue.obj [("id", JValue.str "a"), ("timestamp", JValue.str "t")])
        "timestamp" = true) ∧
    (∃ v id, (some (JValue.obj [("id", JValue.str "a")]) : Option JValue) = some v ∧
        (JValue.getIndex v "id").asStr = some id) := by
  constructor
  · exact hub_invariant_amended.1 JValue.null _ "a" "t" (enrich_null_eq "a" "t")
  · refine hub_invariant_amended.2 ∅ (some "rec0")
      (some (JValue.obj [("id", JValue.str "a")])) "rec0" ?_
    have hstep : (bridgeStep ∅ (some "rec0")
        (some (JValue.obj [("id", JValue.str "a")]))).2 =
        [BridgeEffect.markSeen "a", BridgeEffect.hubForward "rec0"] := by
      simp [bridgeStep, JValue.getIndex, lookupField, JValue.asStr, hasSeen]
    rw [hstep]
    exact List.mem_cons_of_mem _ (List.mem_singleton.mpr rfl)

/-- Claim C8 counterexample: when `rx.recv()` returns `Lagged` — the
backlog overflowed — the send task exits its loop even though the
subscription is not closed and the next write would succeed; the outbound
flow does not keep receiving after an overflow. -/
theorem lagging_receiver_counterexample :
    sendLoopContinues (RecvRes.lagged 1) true = false := rfl

/-- Claim C8 as amended: the Fan-Out Hub backlog capacity is 100, and the
send task loop continues exactly when the receive yielded a message and
the websocket write succeeded — it terminates on the first write failure,
on closure of the subscription, or on a lag error after backlog overflow
(a lagging subscriber does not keep receiving). -/
theorem lagging_receiver_amended :
    hubCapacity = 100 ∧
    (∀ r w, sendLoopContinues r w = true ↔
        (∃ m, r = RecvRes.received m) ∧ w = true) := by
  refine ⟨rfl, ?_⟩
  intro r w
  cases r with
  | received m => cases w <;> simp [sendLoopContinues]
  | closed => cases w <;> simp [sendLoopContinues]
  | lagged n => cases w <;> simp [sendLoopContinues]

/-- Claim C9: the code performs no abort in either `tokio::select!` arm
of `handle_socket`, so when one flow of a Session finishes first its
sibling task is not cancelled — it is left running detached (the claim
and the spec say it must be promptly cancelled). -/
theorem no_sibling_cancellation :
    siblingCancelled Flow.inbound = false ∧
    siblingCancelled Flow.outbound = false :=
  ⟨rfl, rfl⟩

end KafkaRustChat
